import Mathlib

/-!
Shallow embedding of the giveaway lifecycle manager of `src/cogs/giveaway.py`
(the `Giveaway` cog).  The cog keeps an in-memory dict `active_giveaways`
mapping a platform message id to a per-giveaway dict with keys
`channel_id`, `message_id`, `host_id`, `prize`, `winner_count`, `end_time`,
`ended` (and, after a cancel, `cancelled`).  Operations: `create_giveaway`,
`end_giveaway`, `reroll_giveaway`, `list_giveaways`, `cancel_giveaway`,
`parse_time`, and the 10-second reconciliation loop `check_giveaways`.

External effects (discord API) are modelled by explicit parameters:
 * `FetchResult` describes what `bot.get_channel` / `channel.fetch_message`
   / the 🎉-reaction scan deliver for one giveaway;
 * the random generator behind `random.sample` is an arbitrary function
   `Nat → Nat` giving the raw draw of each step, reduced mod the size of
   the remaining population;
 * timestamps (`datetime`) are integers, `now` is passed in.

Python's `\d` matches Unicode decimal digits and `str.lower` is the full
Unicode lowering; the embedding restricts both to their ASCII behaviour
(`Char.isDigit`, `Char.toLower`), which is exact on ASCII input.
-/

namespace GiveawayBot

/-- An entrant / user id (discord user id). -/
abbrev ActorId := Nat

/-- One stored giveaway: the value dict of `active_giveaways`.  The Python
dict initially has no `cancelled` key and nothing ever reads it before
`cancel_giveaway` writes it, so the absent key is modelled as `false`. -/
structure Giveaway where
  channel_id : Nat
  message_id : Nat
  host_id : Nat
  prize : String
  winner_count : Nat
  end_time : Int
  ended : Bool
  cancelled : Bool
deriving DecidableEq, Repr

/-- The spec's three-state contest state, derived from the two flags:
`Active` = not ended; `Ended` = ended, not cancelled; `Cancelled` =
cancelled (cancel always sets both flags). -/
inductive GState where
  | Active
  | Ended
  | Cancelled
deriving DecidableEq, Repr

def Giveaway.state (g : Giveaway) : GState :=
  if g.cancelled then .Cancelled else if g.ended then .Ended else .Active

/-- The contest store: `self.active_giveaways`, a Python dict in insertion
order, embedded as an association list with unique keys maintained by
`Store.insert`. -/
abbrev Store := List (Nat × Giveaway)

namespace Store

/-- Dict lookup `self.active_giveaways[gid]` / `gid in self.active_giveaways`. -/
def lookup : Store → Nat → Option Giveaway
  | [], _ => none
  | (k, v) :: t, gid => if k = gid then some v else lookup t gid

/-- Dict assignment `self.active_giveaways[k] = v`: replaces the binding in
place when the key exists, otherwise appends (Python dicts keep insertion
order). -/
def insert : Store → Nat → Giveaway → Store
  | [], k, v => [(k, v)]
  | (k', v') :: t, k, v =>
    if k' = k then (k, v) :: t else (k', v') :: insert t k v

/-- `del self.active_giveaways[k]`. -/
def erase (st : Store) (k : Nat) : Store :=
  st.filter (fun p => p.1 ≠ k)

end Store

/-! ### Time parser (`Giveaway.parse_time`)

`re.match(r'(\d+)([smhd])', time_str.lower())`: anchored at the start only;
a maximal digit run followed by one unit letter, trailing characters
ignored.  On failure `ValueError` is raised, modelled as `none`. -/

/-- `time_str.lower()` as a character list. -/
def lowerChars (s : String) : List Char :=
  s.data.map Char.toLower

/-- Decimal value of a digit run, as `int()` computes it (most significant
digit first). -/
def digitsVal (ds : List Char) : Nat :=
  ds.foldl (fun a c => 10 * a + (c.toNat - 48)) 0

/-- Seconds multiplier of a unit character (the `if`/`elif` chain). -/
def unitMult (c : Char) : Option Nat :=
  if c = 's' then some 1
  else if c = 'm' then some 60
  else if c = 'h' then some 3600
  else if c = 'd' then some 86400
  else none

/-- `Giveaway.parse_time`.  `re.match` at position 0: the group `(\d+)` is
the maximal leading digit run (digits are not units, so regex backtracking
never shortens it), then `([smhd])` must match the next character; the rest
of the string is not constrained. -/
def parse_time (s : String) : Option Nat :=
  match (lowerChars s).takeWhile Char.isDigit,
        (lowerChars s).dropWhile Char.isDigit with
  | [], _ => none
  | _ :: _, [] => none
  | d :: ds, u :: _ => (unitMult u).map (fun m => digitsVal (d :: ds) * m)

/-! ### `random.sample`

`random.sample(population, k)` returns `k` elements drawn without
replacement (distinct positions of the population).  The draws of the
generator are an arbitrary function `g : Nat → Nat` of the step index; each
draw selects a position of the remaining population (mod its size) and
removes it.  Callers in the cog always pass `k = min wc (population.length)`,
so the `ValueError` branch of `random.sample` (`k > len(population)`) is
unreachable and the guard below is dead code at every call site. -/
def sampleGo (g : Nat → Nat) : Nat → Nat → List ActorId → List ActorId
  | _, 0, _ => []
  | step, k + 1, l =>
    if l.isEmpty then []
    else
      let i := g step % l.length
      l.getD i 0 :: sampleGo g (step + 1) k (l.eraseIdx i)

/-- `random.sample(users, k)` with generator `g`. -/
def sample (users : List ActorId) (k : Nat) (g : Nat → Nat) : List ActorId :=
  sampleGo g 0 k users

/-! ### External fetch outcomes

What the discord API yields for one giveaway during `end_giveaway`,
`reroll_giveaway` or `cancel_giveaway`:
 * `noChannel`: `bot.get_channel(...)` returned `None`;
 * `noMessage`: `channel.fetch_message(...)` raised `discord.NotFound`
   (for `cancel_giveaway`, this also covers `message.edit` raising it —
   the whole block sits in one `try` catching `discord.NotFound`);
 * `noReaction`: message found, but no 🎉 reaction object on it;
 * `entrants users`: message found; `users` are the reactors after the
   `not user.bot` filter, in the API's iteration order (distinct users). -/
inductive FetchResult where
  | noChannel
  | noMessage
  | noReaction
  | entrants (users : List ActorId)
deriving DecidableEq, Repr

/-! ### `Giveaway.end_giveaway`

The second component models the settlement announcement: `none` when the
method returned before editing the message (unknown id, missing channel,
missing message — no announcement), `some ws` when it edited the embed and
sent the winner/no-winner announcement for winner list `ws`. -/
def end_giveaway (st : Store) (gid : Nat) (fetch : FetchResult)
    (g : Nat → Nat) : Store × Option (List ActorId) :=
  match st.lookup gid with
  | none => (st, none)
  | some gv =>
    -- `giveaway['ended'] = True` happens before the channel lookup
    let st1 := st.insert gid { gv with ended := true }
    match fetch with
    | .noChannel => (st1, none)
    | .noMessage => (st1, none)
    | .noReaction => (st1, some [])
    | .entrants users =>
      let wc := min gv.winner_count users.length
      let winners := if wc > 0 then sample users wc g else []
      (st1, some winners)

/-- `Giveaway.check_giveaways`: one tick of the 10-second loop.  It
snapshots the key list, and for each stored giveaway whose `end_time` has
passed calls `end_giveaway` (exceptions are caught per giveaway, and the
embedded `end_giveaway` is total).  The second component collects the
settlement announcements of the tick in order. -/
def check_giveaways (st : Store) (now : Int) (fetchF : Nat → FetchResult)
    (g : Nat → Nat) : Store × List (Nat × List ActorId) :=
  (st.map Prod.fst).foldl
    (fun acc gid =>
      match acc.1.lookup gid with
      | none => acc
      | some gv =>
        if gv.end_time ≤ now then
          let r := end_giveaway acc.1 gid (fetchF gid) g
          (r.1, acc.2 ++ (match r.2 with
                          | some ws => [(gid, ws)]
                          | none => []))
        else acc)
    (st, [])

/-- Result of the `!giveaway create` command handler. -/
inductive CreateOutcome where
  | badTime        -- `parse_time` raised `ValueError`
  | nonPosTime     -- `seconds <= 0`
  | badWinners     -- `int(winners_str)` raised `ValueError`
  | nonPosWinners  -- `winners <= 0`
  | tooManyWinners -- `winners > 20`
  | created (gid : Nat)
deriving DecidableEq, Repr

/-- `Giveaway.create_giveaway`.  `winners_int` is the result of
`int(winners_str)` (`none` = `ValueError`); `new_msg_id` is the id the
platform assigns to the giveaway message the handler sends. -/
def create_giveaway (st : Store) (now : Int)
    (channel_id host_id new_msg_id : Nat) (time_str : String)
    (winners_int : Option Int) (prize : String) : Store × CreateOutcome :=
  match parse_time time_str with
  | none => (st, .badTime)
  | some secs =>
    if secs ≤ 0 then (st, .nonPosTime)
    else
      match winners_int with
      | none => (st, .badWinners)
      | some w =>
        if w ≤ 0 then (st, .nonPosWinners)
        else if w > 20 then (st, .tooManyWinners)
        else
          let gv : Giveaway :=
            { channel_id := channel_id
              message_id := new_msg_id
              host_id := host_id
              prize := prize
              winner_count := w.toNat
              end_time := now + (secs : Int)
              ended := false
              cancelled := false }
          (st.insert new_msg_id gv, .created new_msg_id)

/-- Result of the `!giveaway reroll` command handler. -/
inductive RerollOutcome where
  | notFound       -- id not in `active_giveaways`
  | notEnded       -- `not giveaway['ended']`
  | badCount       -- override `ValueError` / `<= 0` / `> 20`
  | noChannel
  | noMessage
  | noReaction
  | winners (ws : List ActorId)
deriving DecidableEq, Repr

/-- `Giveaway.reroll_giveaway`.  `override` is the result of
`int(winners_str)` when a count argument was given (`some none` =
`ValueError`).  No branch writes to the store. -/
def reroll_giveaway (st : Store) (gid : Nat) (override : Option (Option Int))
    (fetch : FetchResult) (g : Nat → Nat) : Store × RerollOutcome :=
  match st.lookup gid with
  | none => (st, .notFound)
  | some gv =>
    if !gv.ended then (st, .notEnded)
    else
      match (match override with
             | some none => none
             | some (some w) => if w ≤ 0 then none else if w > 20 then none else some w.toNat
             | none => some gv.winner_count : Option Nat) with
      | none => (st, .badCount)
      | some wc0 =>
        match fetch with
        | .noChannel => (st, .noChannel)
        | .noMessage => (st, .noMessage)
        | .noReaction => (st, .noReaction)
        | .entrants users =>
          let wc := min wc0 users.length
          (st, .winners (if wc > 0 then sample users wc g else []))

/-- `Giveaway.list_giveaways`: filters the store to the giveaways with
`not g['ended']`, in insertion order. -/
def list_giveaways (st : Store) : Store :=
  st.filter (fun p => !p.2.ended)

/-- Result of the `!giveaway cancel` command handler. -/
inductive CancelOutcome where
  | notFound       -- id not in `active_giveaways`
  | alreadyEnded   -- `giveaway['ended']` already true
  | noChannel      -- channel lookup failed, nothing changed
  | messageGone    -- `discord.NotFound`: entry deleted from the store
  | cancelled      -- embed edited, flags set
deriving DecidableEq, Repr

/-- `Giveaway.cancel_giveaway`.  The reaction scan is irrelevant here:
`noReaction` and `entrants _` both mean the message was fetched and edited
successfully. -/
def cancel_giveaway (st : Store) (gid : Nat) (fetch : FetchResult) :
    Store × CancelOutcome :=
  match st.lookup gid with
  | none => (st, .notFound)
  | some gv =>
    if gv.ended then (st, .alreadyEnded)
    else
      match fetch with
      | .noChannel => (st, .noChannel)
      | .noMessage => (st.erase gid, .messageGone)
      | .noReaction => (st.insert gid { gv with ended := true, cancelled := true }, .cancelled)
      | .entrants _ => (st.insert gid { gv with ended := true, cancelled := true }, .cancelled)

/-! ## Basic lemmas -/

theorem state_eq_active_iff (g : Giveaway) :
    g.state = GState.Active ↔ g.cancelled = false ∧ g.ended = false := by
  unfold Giveaway.state
  rcases hc : g.cancelled <;> rcases he : g.ended <;> simp

namespace Store

theorem lookup_mem {st : Store} {k : Nat} {v : Giveaway}
    (h : st.lookup k = some v) : (k, v) ∈ st := by
  induction st with
  | nil => simp [lookup] at h
  | cons p t ih =>
    obtain ⟨k', v'⟩ := p
    by_cases hk : k' = k
    · subst hk
      simp [lookup] at h
      subst h
      exact List.mem_cons_self _ _
    · simp [lookup, hk] at h
      exact List.mem_cons_of_mem _ (ih h)

theorem mem_insert {st : Store} {k : Nat} {v : Giveaway} {p : Nat × Giveaway}
    (h : p ∈ st.insert k v) : p = (k, v) ∨ p ∈ st := by
  induction st with
  | nil => simpa [insert] using h
  | cons q t ih =>
    obtain ⟨k', v'⟩ := q
    by_cases hk : k' = k
    · simp [insert, hk] at h
      rcases h with h | h
      · exact Or.inl h
      · exact Or.inr (List.mem_cons_of_mem _ h)
    · simp only [insert, if_neg hk, List.mem_cons] at h
      rcases h with h | h
      · exact Or.inr (by simp [h])
      · rcases ih h with h' | h'
        · exact Or.inl h'
        · exact Or.inr (List.mem_cons_of_mem _ h')

theorem lookup_insert_self (st : Store) (k : Nat) (v : Giveaway) :
    (st.insert k v).lookup k = some v := by
  induction st with
  | nil => simp [insert, lookup]
  | cons q t ih =>
    obtain ⟨k', v'⟩ := q
    by_cases hk : k' = k
    · simp [insert, hk, lookup]
    · simp [insert, hk, lookup, ih]

theorem lookup_insert_ne (st : Store) {k j : Nat} (v : Giveaway)
    (h : j ≠ k) : (st.insert k v).lookup j = st.lookup j := by
  have hkj : ¬ k = j := fun e => h e.symm
  induction st with
  | nil => simp [insert, lookup, hkj]
  | cons q t ih =>
    obtain ⟨k', v'⟩ := q
    by_cases hk : k' = k
    · subst hk
      simp [insert, lookup, hkj]
    · simp only [insert, if_neg hk, lookup]
      by_cases hj : k' = j <;> simp [hj, ih]

theorem lookup_erase_self (st : Store) (k : Nat) :
    (st.erase k).lookup k = none := by
  induction st with
  | nil => simp [erase, lookup]
  | cons q t ih =>
    obtain ⟨k', v'⟩ := q
    by_cases hk : k' = k
    · simpa [erase, hk] using ih
    · simpa [erase, lookup, hk] using ih

theorem mem_erase {st : Store} {k : Nat} {p : Nat × Giveaway}
    (h : p ∈ st.erase k) : p ∈ st :=
  (List.mem_filter.mp h).1

end Store

/-! ## Sampling lemmas -/

theorem perm_getD_cons_eraseIdx :
    ∀ (l : List ActorId) (i : Nat), i < l.length →
      l.Perm (l.getD i 0 :: l.eraseIdx i) := by
  intro l
  induction l with
  | nil => intro i h; simp at h
  | cons x t ih =>
    intro i h
    match i with
    | 0 => simp [List.getD]
    | Nat.succ j =>
      have hj : j < t.length := by simpa using h
      have step : (x :: t).Perm (x :: (t.getD j 0 :: t.eraseIdx j)) :=
        List.Perm.cons x (ih j hj)
      refine step.trans ?_
      simpa using List.Perm.swap (t.getD j 0) x (t.eraseIdx j)

theorem sampleGo_subperm (g : Nat → Nat) :
    ∀ (k step : Nat) (l : List ActorId), (sampleGo g step k l).Subperm l := by
  intro k
  induction k with
  | zero => intro step l; simp [sampleGo]
  | succ k ih =>
    intro step l
    by_cases hl : l.isEmpty
    · simp [sampleGo, hl]
    · have hlen : 0 < l.length := by
        cases l with
        | nil => simp [List.isEmpty] at hl
        | cons a t => simp
      have hi : g step % l.length < l.length := Nat.mod_lt _ hlen
      have h1 : (sampleGo g (step + 1) k (l.eraseIdx (g step % l.length))).Subperm
          (l.eraseIdx (g step % l.length)) := ih (step + 1) _
      have h2 : (sampleGo g step (k + 1) l) =
          l.getD (g step % l.length) 0 ::
            sampleGo g (step + 1) k (l.eraseIdx (g step % l.length)) := by
        simp [sampleGo, hl]
      rw [h2]
      have h3 : (l.getD (g step % l.length) 0 ::
          sampleGo g (step + 1) k (l.eraseIdx (g step % l.length))).Subperm
          (l.getD (g step % l.length) 0 :: l.eraseIdx (g step % l.length)) :=
        (List.subperm_cons _).mpr h1
      exact h3.trans (perm_getD_cons_eraseIdx l _ hi).symm.subperm

theorem sampleGo_length (g : Nat → Nat) :
    ∀ (k step : Nat) (l : List ActorId),
      (sampleGo g step k l).length = min k l.length := by
  intro k
  induction k with
  | zero => intro step l; simp [sampleGo]
  | succ k ih =>
    intro step l
    by_cases hl : l.isEmpty
    · have : l = [] := by
        cases l with
        | nil => rfl
        | cons a t => simp [List.isEmpty] at hl
      subst this
      simp [sampleGo]
    · have hlen : 0 < l.length := by
        cases l with
        | nil => simp [List.isEmpty] at hl
        | cons a t => simp
      have hi : g step % l.length < l.length := Nat.mod_lt _ hlen
      have h2 : (sampleGo g step (k + 1) l) =
          l.getD (g step % l.length) 0 ::
            sampleGo g (step + 1) k (l.eraseIdx (g step % l.length)) := by
        simp [sampleGo, hl]
      rw [h2]
      simp only [List.length_cons, ih, List.length_eraseIdx_of_lt hi]
      omega

theorem sample_subperm (users : List ActorId) (k : Nat) (g : Nat → Nat) :
    (sample users k g).Subperm users :=
  sampleGo_subperm g k 0 users

theorem sample_length (users : List ActorId) (k : Nat) (g : Nat → Nat) :
    (sample users k g).length = min k users.length :=
  sampleGo_length g k 0 users

theorem sample_nodup (users : List ActorId) (k : Nat) (g : Nat → Nat)
    (h : users.Nodup) : (sample users k g).Nodup := by
  obtain ⟨m, hp, hs⟩ := sample_subperm users k g
  exact hp.nodup_iff.mp (hs.nodup h)

/-! ## Time-parser lemmas -/

/-- Splitting `takeWhile`/`dropWhile` at the first character failing the
predicate. -/
theorem takeWhile_dropWhile_split (p : Char → Bool) :
    ∀ (ds : List Char) (u : Char) (r : List Char),
      (∀ c ∈ ds, p c = true) → p u = false →
      (ds ++ u :: r).takeWhile p = ds ∧ (ds ++ u :: r).dropWhile p = u :: r := by
  intro ds
  induction ds with
  | nil =>
    intro u r _ hu
    simp [List.takeWhile_cons, List.dropWhile_cons, hu]
  | cons d t ih =>
    intro u r hds hu
    have hd : p d = true := hds d (List.mem_cons_self _ _)
    have ht : ∀ c ∈ t, p c = true := fun c hc => hds c (List.mem_cons_of_mem _ hc)
    have := ih u r ht hu
    simp [List.takeWhile_cons, List.dropWhile_cons, hd, this.1, this.2]

/-- The accumulator form of the decimal fold behind `int()`. -/
theorem digitsFold_eq (ds : List Char) :
    ∀ a : Nat,
      ds.foldl (fun a c => 10 * a + (c.toNat - 48)) a =
        a * 10 ^ ds.length +
          Nat.ofDigits 10 ((ds.map fun c => c.toNat - 48).reverse) := by
  induction ds with
  | nil => intro a; simp [Nat.ofDigits_nil]
  | cons c t ih =>
    intro a
    have step : ((c :: t).map fun c => c.toNat - 48).reverse =
        ((t.map fun c => c.toNat - 48).reverse) ++ [c.toNat - 48] := by
      simp
    rw [List.foldl_cons, ih, step, Nat.ofDigits_append]
    simp [Nat.ofDigits_cons, Nat.ofDigits_nil]
    ring

/-- `digitsVal` is the standard base-10 value of the digit run. -/
theorem digitsVal_eq_ofDigits (ds : List Char) :
    digitsVal ds = Nat.ofDigits 10 ((ds.map fun c => c.toNat - 48).reverse) := by
  unfold digitsVal
  rw [digitsFold_eq]
  simp

/-- Modelled from the spec's words, for comparison with `parse_time` only:
the claim's pattern `^\d+[smhd]$` (unit case-insensitive) — after
lowering, the whole string is a nonempty digit run followed by exactly one
unit letter, nothing after it. -/
def specTimePattern (s : String) : Bool :=
  let cs := lowerChars s
  !cs.dropLast.isEmpty && cs.dropLast.all Char.isDigit &&
    (match cs.getLast? with
     | some u => u = 's' || u = 'm' || u = 'h' || u = 'd'
     | none => false)

/-! ## Claim C3 -/

/-- C3 counterexample: the spec claims every input not matching
`^\d+[smhd]$` fails, but `re.match` anchors only at the start of the
string: `"10sx"` does not match the spec's full pattern, yet `parse_time`
accepts it and returns `10`. -/
theorem parse_time_trailing_cex :
    specTimePattern "10sx" = false ∧ parse_time "10sx" = some 10 := by
  decide

/-- C3 (amended): `parse_time` succeeds exactly on strings whose lowering
begins with a nonempty digit run followed by one unit letter s/m/h/d —
trailing characters after the unit are ignored — and returns the decimal
value of the digit run multiplied by 1, 60, 3600 or 86400 respectively.
For strings with a non-unit character after the digit run, with no leading
digit, or consisting only of digits, it fails (`ValueError`). -/
theorem parse_time_characterization :
    (∀ (s : String) (ds : List Char) (u : Char) (r : List Char),
        lowerChars s = ds ++ u :: r → ds ≠ [] →
        (∀ c ∈ ds, c.isDigit = true) →
        (u = 's' ∨ u = 'm' ∨ u = 'h' ∨ u = 'd') →
        parse_time s =
          some (Nat.ofDigits 10 ((ds.map fun c => c.toNat - 48).reverse) *
            (if u = 's' then 1 else if u = 'm' then 60
             else if u = 'h' then 3600 else 86400)))
    ∧ (∀ (s : String) (ds : List Char) (u : Char) (r : List Char),
        lowerChars s = ds ++ u :: r →
        (∀ c ∈ ds, c.isDigit = true) → u.isDigit = false →
        ¬(u = 's' ∨ u = 'm' ∨ u = 'h' ∨ u = 'd') →
        parse_time s = none)
    ∧ (∀ s : String, (lowerChars s).takeWhile Char.isDigit = [] →
        parse_time s = none)
    ∧ (∀ s : String, (lowerChars s).dropWhile Char.isDigit = [] →
        parse_time s = none) := by
  refine ⟨?_, ?_, ?_, ?_⟩
  · intro s ds u r hcs hne hdig hu
    have hu' : u.isDigit = false := by
      rcases hu with rfl | rfl | rfl | rfl <;> decide
    have hsplit := takeWhile_dropWhile_split Char.isDigit ds u r hdig hu'
    rw [← hcs] at hsplit
    cases ds with
    | nil => exact absurd rfl hne
    | cons d t =>
      rw [parse_time, hsplit.1, hsplit.2]
      rcases hu with rfl | rfl | rfl | rfl <;>
        simp [unitMult, digitsVal_eq_ofDigits]
  · intro s ds u r hcs hdig hu' hu
    have hm : unitMult u = none := by
      unfold unitMult
      push_neg at hu
      simp [hu.1, hu.2.1, hu.2.2.1, hu.2.2.2]
    have hsplit := takeWhile_dropWhile_split Char.isDigit ds u r hdig hu'
    rw [← hcs] at hsplit
    cases ds with
    | nil =>
      rw [parse_time, hsplit.1]
    | cons d t =>
      rw [parse_time, hsplit.1, hsplit.2]
      simp [hm]
  · intro s h
    rw [parse_time, h]
  · intro s h
    rw [parse_time]
    cases hds : (lowerChars s).takeWhile Char.isDigit with
    | nil => rfl
    | cons d t => rw [h]

/-- C3 witness: the amended theorem applied at `"30s"` gives 30 seconds. -/
theorem parse_time_characterization_witness : parse_time "30s" = some 30 := by
  have h := parse_time_characterization.1 "30s" ['3', '0'] 's' []
    (by decide) (by decide) (by decide) (Or.inl rfl)
  rw [h]
  decide

/-! ## Concrete fixtures shared by several tests below -/

/-- A degenerate deterministic random stream (always draws 0). -/
def gZero : Nat → Nat := fun _ => 0

/-- A running (`Active`) giveaway stored under key 1. -/
def gvActive : Giveaway :=
  { channel_id := 10, message_id := 1, host_id := 2, prize := "nitro",
    winner_count := 2, end_time := 100, ended := false, cancelled := false }

/-- A settled (`Ended`) giveaway stored under key 1. -/
def gvEnded : Giveaway :=
  { channel_id := 10, message_id := 1, host_id := 2, prize := "nitro",
    winner_count := 2, end_time := 0, ended := true, cancelled := false }

/-- A cancelled giveaway stored under key 1 (cancel sets both flags). -/
def gvCancelled : Giveaway :=
  { channel_id := 10, message_id := 1, host_id := 2, prize := "nitro",
    winner_count := 1, end_time := 0, ended := true, cancelled := true }

/-! ## Frame helpers shared by several claims -/

/-- `reroll_giveaway` never writes to the store, in any branch. -/
theorem reroll_store_frame (st : Store) (gid : Nat) (o : Option (Option Int))
    (fetch : FetchResult) (g : Nat → Nat) :
    (reroll_giveaway st gid o fetch g).1 = st := by
  unfold reroll_giveaway
  repeat' split
  all_goals rfl

/-- The store after `end_giveaway` on a stored id: the same store with the
entry's `ended` flag set (this happens before the channel fetch, in every
branch). -/
theorem end_giveaway_store (st : Store) (gid : Nat) {gv : Giveaway}
    (fetch : FetchResult) (g : Nat → Nat) (h : st.lookup gid = some gv) :
    (end_giveaway st gid fetch g).1 = st.insert gid { gv with ended := true } := by
  rw [end_giveaway, h]
  cases fetch <;> rfl

/-! ## Claim C1 -/

/-- C1 refuted (code bug): once a contest is `Ended` or `Cancelled` the
spec says no reconciliation tick re-settles it and no settlement
notification fires for a cancelled contest.  But `check_giveaways`
selects every stored giveaway with `end_time <= now` without consulting
the `ended`/`cancelled` flags, and settled giveaways are never removed
from `active_giveaways` (the removal is commented out), so a cancelled
contest whose end time has elapsed is re-settled: here the tick emits the
winner announcement `(1, [7])` for the cancelled contest stored at key 1. -/
theorem tick_resettles_cancelled :
    gvCancelled.state = GState.Cancelled ∧
    (check_giveaways [(1, gvCancelled)] 5 (fun _ => .entrants [7]) gZero).2 =
      [(1, [7])] := by
  decide

/-! ## Claim C2 -/

/-- C2 refuted (code bug): the spec says a failed channel/message fetch
aborts settlement with no state change, leaving the contest `Active`.
`end_giveaway` sets `giveaway['ended'] = True` before it looks up the
channel, contradicting its own comments ("Can't end the giveaway if we
can't find the channel/message"): on both fetch failures the announcement
is skipped (result `none`) but the stored contest is left `Ended`, not
`Active`. -/
theorem abort_still_marks_ended :
    gvActive.state = GState.Active ∧
    (end_giveaway [(1, gvActive)] 1 .noChannel gZero).2 = none ∧
    ((end_giveaway [(1, gvActive)] 1 .noChannel gZero).1.lookup 1 =
      some { gvActive with ended := true }) ∧
    (end_giveaway [(1, gvActive)] 1 .noMessage gZero).2 = none ∧
    ((end_giveaway [(1, gvActive)] 1 .noMessage gZero).1.lookup 1 =
      some { gvActive with ended := true }) ∧
    ({ gvActive with ended := true } : Giveaway).state = GState.Ended := by
  decide

/-! ## Claim C4 -/

/-- C4: settlement with entrant set `users` announces exactly
`min winnerCount |users|` winners, pairwise distinct, all drawn from
`users` (the empty sequence when the minimum is 0), and leaves the stored
contest `Ended` — also on zero entrants. -/
theorem settle_spec :
    ∀ (st : Store) (gid : Nat) (gv : Giveaway) (users : List ActorId)
      (g : Nat → Nat),
      st.lookup gid = some gv → gv.cancelled = false → users.Nodup →
      ∃ ws, (end_giveaway st gid (.entrants users) g).2 = some ws ∧
        ws.length = min gv.winner_count users.length ∧
        ws.Nodup ∧ (∀ a ∈ ws, a ∈ users) ∧
        ((end_giveaway st gid (.entrants users) g).1.lookup gid =
          some { gv with ended := true }) ∧
        ({ gv with ended := true } : Giveaway).state = GState.Ended := by
  intro st gid gv users g h hc hnd
  have hstore : (end_giveaway st gid (.entrants users) g).1 =
      st.insert gid { gv with ended := true } := end_giveaway_store st gid _ g h
  have hres : (end_giveaway st gid (.entrants users) g).2 =
      some (if min gv.winner_count users.length > 0
            then sample users (min gv.winner_count users.length) g
            else []) := by
    rw [end_giveaway, h]
  refine ⟨_, hres, ?_, ?_, ?_, ?_, ?_⟩
  · by_cases hpos : min gv.winner_count users.length > 0
    · simp only [if_pos hpos, sample_length]
      omega
    · simp only [if_neg hpos, List.length_nil]
      omega
  · by_cases hpos : min gv.winner_count users.length > 0
    · simpa only [if_pos hpos] using sample_nodup users _ g hnd
    · rw [if_neg hpos]
      exact List.nodup_nil
  · intro a ha
    by_cases hpos : min gv.winner_count users.length > 0
    · rw [if_pos hpos] at ha
      exact (sample_subperm users _ g).subset ha
    · rw [if_neg hpos] at ha
      simp at ha
  · rw [hstore, Store.lookup_insert_self]
  · simp [Giveaway.state, hc]

/-- C4 witness: two winners out of three distinct entrants, stored record
flipped to `Ended`. -/
theorem settle_spec_witness :
    ∃ ws, (end_giveaway [(1, gvActive)] 1 (.entrants [5, 6, 7]) gZero).2 =
        some ws ∧
      ws.length = min gvActive.winner_count [5, 6, 7].length ∧
      ws.Nodup ∧ (∀ a ∈ ws, a ∈ [5, 6, 7]) ∧
      ((end_giveaway [(1, gvActive)] 1 (.entrants [5, 6, 7]) gZero).1.lookup 1 =
        some { gvActive with ended := true }) ∧
      ({ gvActive with ended := true } : Giveaway).state = GState.Ended :=
  settle_spec [(1, gvActive)] 1 gvActive [5, 6, 7] gZero
    (by decide) (by decide) (by decide)

/-! ## Claim C5 -/

/-- C5 counterexample: there is no `lastWinners` on the stored contest and
nothing is overwritten by a successful reroll: settling the contest stores
exactly the original record with `ended := true` (winner list `[5, 6]` is
announced but appears nowhere in the store), and a successful reroll that
samples the fresh winner list `[5, 6]` returns the store byte-identical. -/
theorem no_stored_winners_cex :
    ((end_giveaway [(1, gvActive)] 1 (.entrants [5, 6]) gZero).1 =
      [(1, { gvActive with ended := true })]) ∧
    ((end_giveaway [(1, gvActive)] 1 (.entrants [5, 6]) gZero).2 =
      some [5, 6]) ∧
    ((reroll_giveaway [(1, gvEnded)] 1 none (.entrants [5, 6]) gZero).2 =
      .winners [5, 6]) ∧
    ((reroll_giveaway [(1, gvEnded)] 1 none (.entrants [5, 6]) gZero).1 =
      [(1, gvEnded)]) := by
  decide

/-- C5 (amended): winner sequences are never persisted — the only store
mutation of settlement is setting the entry's `ended` flag, and a reroll
(any outcome, any override) performs no store mutation at all. -/
theorem winners_not_persisted :
    ∀ (st : Store) (gid : Nat) (gv : Giveaway) (o : Option (Option Int))
      (fetch : FetchResult) (g : Nat → Nat),
      st.lookup gid = some gv →
      (end_giveaway st gid fetch g).1 = st.insert gid { gv with ended := true } ∧
      (reroll_giveaway st gid o fetch g).1 = st :=
  fun st gid _gv o fetch g h =>
    ⟨end_giveaway_store st gid fetch g h, reroll_store_frame st gid o fetch g⟩

/-- C5 witness: the amended theorem at a concrete ended contest. -/
theorem winners_not_persisted_witness :
    (end_giveaway [(1, gvEnded)] 1 (.entrants [5, 6]) gZero).1 =
      Store.insert [(1, gvEnded)] 1 { gvEnded with ended := true } ∧
    (reroll_giveaway [(1, gvEnded)] 1 none (.entrants [5, 6]) gZero).1 =
      [(1, gvEnded)] :=
  winners_not_persisted [(1, gvEnded)] 1 gvEnded none (.entrants [5, 6]) gZero
    (by decide)

/-! ## Claim C6 -/

/-- C6: `create` rejects a winner count outside [1, 20] and a
non-positive duration with the store untouched (same size); a successful
create inserts a contest with state `Active` and
`endAt = now + duration`. -/
theorem create_spec :
    ∀ (st : Store) (now : Int) (ch host mid : Nat) (t : String)
      (w : Option Int) (pr : String),
      (parse_time t = some 0 →
        (create_giveaway st now ch host mid t w pr).1 = st ∧
        (create_giveaway st now ch host mid t w pr).1.length = st.length ∧
        ∀ gid, (create_giveaway st now ch host mid t w pr).2 ≠ .created gid) ∧
      (∀ (s : Nat) (wv : Int), parse_time t = some s → 0 < s → w = some wv →
        (wv < 1 ∨ 20 < wv) →
        (create_giveaway st now ch host mid t w pr).1 = st ∧
        (create_giveaway st now ch host mid t w pr).1.length = st.length ∧
        ∀ gid, (create_giveaway st now ch host mid t w pr).2 ≠ .created gid) ∧
      (∀ (s : Nat) (wv : Int), parse_time t = some s → 0 < s → w = some wv →
        1 ≤ wv → wv ≤ 20 →
        ∃ gv : Giveaway,
          (create_giveaway st now ch host mid t w pr).1 = st.insert mid gv ∧
          (create_giveaway st now ch host mid t w pr).1.lookup mid = some gv ∧
          gv.state = GState.Active ∧ gv.end_time = now + (s : Int) ∧
          gv.winner_count = wv.toNat ∧ gv.message_id = mid) := by
  intro st now ch host mid t w pr
  refine ⟨?_, ?_, ?_⟩
  · intro h0
    rw [create_giveaway, h0]
    simp
  · intro s wv hp hs hw hrange
    simp only [create_giveaway, hp, hw]
    rw [if_neg (by omega : ¬ s ≤ 0)]
    rcases hrange with hlt | hgt
    · rw [if_pos (by omega : wv ≤ 0)]
      simp
    · rw [if_neg (by omega : ¬ wv ≤ 0), if_pos (by omega : wv > 20)]
      simp
  · intro s wv hp hs hw h1 h2
    simp only [create_giveaway, hp, hw]
    rw [if_neg (by omega : ¬ s ≤ 0), if_neg (by omega : ¬ wv ≤ 0),
      if_neg (by omega : ¬ wv > 20)]
    refine ⟨_, rfl, Store.lookup_insert_self st mid _, ?_, rfl, rfl, rfl⟩
    simp [Giveaway.state]

/-- C6 witness: winner count 21 is rejected with the empty store
unchanged; duration `"0s"` is rejected; `"5m"` with 2 winners succeeds at
50 + 300. -/
theorem create_spec_witness :
    (create_giveaway [] 50 10 2 1 "5m" (some 21) "nitro").1 = ([] : Store) ∧
    (create_giveaway [] 50 10 2 1 "0s" (some 2) "nitro").1 = ([] : Store) ∧
    ∃ gv : Giveaway,
      (create_giveaway [] 50 10 2 1 "5m" (some 2) "nitro").1 =
        Store.insert [] 1 gv ∧
      (create_giveaway [] 50 10 2 1 "5m" (some 2) "nitro").1.lookup 1 =
        some gv ∧
      gv.state = GState.Active ∧ gv.end_time = 50 + (300 : Int) ∧
      gv.winner_count = (2 : Int).toNat ∧ gv.message_id = 1 :=
  ⟨((create_spec [] 50 10 2 1 "5m" (some 21) "nitro").2.1 300 21
      (by decide) (by decide) rfl (Or.inr (by decide))).1,
   ((create_spec [] 50 10 2 1 "0s" (some 2) "nitro").1 (by decide)).1,
   (create_spec [] 50 10 2 1 "5m" (some 2) "nitro").2.2 300 2
      (by decide) (by decide) rfl (by decide) (by decide)⟩

/-! ## Claim C7 -/

/-- C7 counterexample: the reroll guard is the `ended` flag, which a
cancelled giveaway also carries, so reroll does not require state `Ended`:
the cancelled contest at key 1 rerolls successfully and announces a
winner. -/
theorem reroll_cancelled_cex :
    gvCancelled.state = GState.Cancelled ∧
    gvCancelled.state ≠ GState.Ended ∧
    (reroll_giveaway [(1, gvCancelled)] 1 none (.entrants [5]) gZero).2 =
      .winners [5] := by
  decide

/-- C7 (amended): reroll fails on an `Active` contest (its guard is the
`ended` flag, so both `Ended` and `Cancelled` contests pass it), and no
reroll — with or without a winner-count override — writes to the store:
the stored contest, hence its state and its `winner_count`, is unchanged. -/
theorem reroll_spec :
    ∀ (st : Store) (gid : Nat) (gv : Giveaway) (o : Option (Option Int))
      (fetch : FetchResult) (g : Nat → Nat),
      st.lookup gid = some gv →
      (gv.state = GState.Active →
        (reroll_giveaway st gid o fetch g).2 = .notEnded) ∧
      (reroll_giveaway st gid o fetch g).1 = st ∧
      (reroll_giveaway st gid o fetch g).1.lookup gid = some gv := by
  intro st gid gv o fetch g h
  have hframe := reroll_store_frame st gid o fetch g
  refine ⟨?_, hframe, by rw [hframe]; exact h⟩
  intro ha
  have he : gv.ended = false := ((state_eq_active_iff gv).mp ha).2
  rw [reroll_giveaway, h]
  simp [he]

/-- C7 witness: reroll on the stored `Active` contest reports "not ended
yet" and leaves the store as it was. -/
theorem reroll_spec_witness :
    (reroll_giveaway [(1, gvActive)] 1 (some (some 3)) (.entrants [5]) gZero).2 =
      RerollOutcome.notEnded ∧
    (reroll_giveaway [(1, gvActive)] 1 (some (some 3)) (.entrants [5]) gZero).1 =
      [(1, gvActive)] ∧
    (reroll_giveaway [(1, gvActive)] 1 (some (some 3))
        (.entrants [5]) gZero).1.lookup 1 = some gvActive :=
  ⟨(reroll_spec [(1, gvActive)] 1 gvActive (some (some 3)) (.entrants [5]) gZero
      (by decide)).1 (by decide),
   (reroll_spec [(1, gvActive)] 1 gvActive (some (some 3)) (.entrants [5]) gZero
      (by decide)).2.1,
   (reroll_spec [(1, gvActive)] 1 gvActive (some (some 3)) (.entrants [5]) gZero
      (by decide)).2.2⟩

/-! ## Claim C8 -/

/-- C8: `list_giveaways` shows no `Ended` or `Cancelled` contest — every
listed contest is `Active`.  The hypothesis is the reachability invariant
of the store: the `cancelled` flag is only ever set together with the
`ended` flag (`cancel_giveaway` sets both; every record is created with
both cleared). -/
theorem list_active_spec :
    ∀ st : Store, (∀ p ∈ st, p.2.cancelled = true → p.2.ended = true) →
      ∀ p ∈ list_giveaways st, p.2.state = GState.Active := by
  intro st hwf p hp
  have h1 := List.mem_filter.mp hp
  have hne : p.2.ended = false := by simpa using h1.2
  have hnc : p.2.cancelled = false := by
    cases hc : p.2.cancelled with
    | false => rfl
    | true =>
      have := hwf p h1.1 hc
      rw [this] at hne
      cases hne
  rw [state_eq_active_iff]
  exact ⟨hnc, hne⟩

/-- C8 witness: in a store holding one running and one settled giveaway,
the listed running one is `Active`. -/
theorem list_active_spec_witness : gvActive.state = GState.Active :=
  list_active_spec [(1, gvActive), (2, gvEnded)] (by decide)
    (1, gvActive) (by decide)

/-! ## Claim C9 -/

/-- C9: `cancel_giveaway` on a stored `Active` contest mutates only after
the message is reachable: a missing channel leaves the store untouched
(contest still `Active`); a found channel with the message gone deletes
the entry from the store instead of marking it; on success the stored
record gets both flags set, i.e. state `Cancelled`. -/
theorem cancel_spec :
    ∀ (st : Store) (gid : Nat) (gv : Giveaway),
      st.lookup gid = some gv → gv.state = GState.Active →
      ((cancel_giveaway st gid .noChannel).1 = st ∧
        (cancel_giveaway st gid .noChannel).2 = .noChannel ∧
        (cancel_giveaway st gid .noChannel).1.lookup gid = some gv) ∧
      ((cancel_giveaway st gid .noMessage).1 = st.erase gid ∧
        (cancel_giveaway st gid .noMessage).1.lookup gid = none) ∧
      (∀ fetch : FetchResult,
        (fetch = .noReaction ∨ ∃ users, fetch = .entrants users) →
        (cancel_giveaway st gid fetch).1 =
          st.insert gid { gv with ended := true, cancelled := true } ∧
        (cancel_giveaway st gid fetch).1.lookup gid =
          some { gv with ended := true, cancelled := true }) ∧
      ({ gv with ended := true, cancelled := true } : Giveaway).state =
        GState.Cancelled := by
  intro st gid gv h ha
  have he : gv.ended = false := ((state_eq_active_iff gv).mp ha).2
  refine ⟨⟨?_, ?_, ?_⟩, ⟨?_, ?_⟩, ?_, ?_⟩
  · simp [cancel_giveaway, h, he]
  · simp [cancel_giveaway, h, he]
  · simp only [cancel_giveaway, h, he]
    simpa using h
  · simp [cancel_giveaway, h, he]
  · simp only [cancel_giveaway, h, he]
    simpa using Store.lookup_erase_self st gid
  · intro fetch hf
    rcases hf with rfl | ⟨users, rfl⟩ <;>
      simp [cancel_giveaway, h, he, Store.lookup_insert_self]
  · simp [Giveaway.state]

/-- C9 witness: the three branches at the concrete `Active` store. -/
theorem cancel_spec_witness :
    (cancel_giveaway [(1, gvActive)] 1 .noChannel).1 = [(1, gvActive)] ∧
    (cancel_giveaway [(1, gvActive)] 1 .noMessage).1.lookup 1 = none ∧
    (cancel_giveaway [(1, gvActive)] 1 (.entrants [5])).1.lookup 1 =
      some { gvActive with ended := true, cancelled := true } :=
  ⟨(cancel_spec [(1, gvActive)] 1 gvActive (by decide) (by decide)).1.1,
   (cancel_spec [(1, gvActive)] 1 gvActive (by decide) (by decide)).2.1.2,
   ((cancel_spec [(1, gvActive)] 1 gvActive (by decide) (by decide)).2.2.1
      (.entrants [5]) (Or.inr ⟨[5], rfl⟩)).2⟩

/-! ## Claim C10 -/

/-- Insertion preserves the key/`message_id` agreement when the new value
agrees with its key. -/
theorem kc_insert {st : Store} (h : ∀ p ∈ st, p.2.message_id = p.1)
    {k : Nat} {v : Giveaway} (hv : v.message_id = k) :
    ∀ p ∈ st.insert k v, p.2.message_id = p.1 := by
  intro p hp
  rcases Store.mem_insert hp with rfl | hp'
  · exact hv
  · exact h p hp'

/-- `cancel_giveaway` preserves the key/`message_id` agreement. -/
theorem kc_cancel {st : Store} (h : ∀ p ∈ st, p.2.message_id = p.1)
    (gid : Nat) (fetch : FetchResult) :
    ∀ p ∈ (cancel_giveaway st gid fetch).1, p.2.message_id = p.1 := by
  cases hl : st.lookup gid with
  | none =>
    rw [cancel_giveaway, hl]
    exact h
  | some gv =>
    have hm : gv.message_id = gid := h (gid, gv) (Store.lookup_mem hl)
    simp only [cancel_giveaway, hl]
    by_cases hge : gv.ended = true
    · rw [if_pos hge]
      exact h
    · rw [if_neg hge]
      cases fetch with
      | noChannel => exact h
      | noMessage => exact fun p hp => h p (Store.mem_erase hp)
      | noReaction => exact kc_insert h hm
      | entrants users => exact kc_insert h hm

/-- `end_giveaway` preserves the key/`message_id` agreement. -/
theorem kc_end {st : Store} (h : ∀ p ∈ st, p.2.message_id = p.1)
    (gid : Nat) (fetch : FetchResult) (g : Nat → Nat) :
    ∀ p ∈ (end_giveaway st gid fetch g).1, p.2.message_id = p.1 := by
  cases hl : st.lookup gid with
  | none =>
    rw [end_giveaway, hl]
    exact h
  | some gv =>
    rw [end_giveaway_store st gid fetch g hl]
    exact kc_insert h (h (gid, gv) (Store.lookup_mem hl))

/-- Accumulator-preservation of a store property along the tick's fold. -/
theorem foldl_step_preserve (P : Store → Prop)
    (f : Store × List (Nat × List ActorId) → Nat →
      Store × List (Nat × List ActorId))
    (hf : ∀ acc gid, P acc.1 → P (f acc gid).1) :
    ∀ (ids : List Nat) (acc : Store × List (Nat × List ActorId)),
      P acc.1 → P ((ids.foldl f acc).1) := by
  intro ids
  induction ids with
  | nil => intro acc h; exact h
  | cons i t ih => intro acc h; exact ih _ (hf acc i h)

/-- C10: for every id in the store, the stored contest's `message_id`
equals its key, and every operation — create, end, reroll, cancel, the
message-gone delete, and a reconciliation tick — preserves this
invariant. -/
theorem key_consistency :
    ∀ st : Store, (∀ p ∈ st, p.2.message_id = p.1) →
      ∀ (now : Int) (ch host mid gid : Nat) (t : String) (w : Option Int)
        (pr : String) (o : Option (Option Int)) (fetch : FetchResult)
        (fetchF : Nat → FetchResult) (g : Nat → Nat),
        (∀ p ∈ (create_giveaway st now ch host mid t w pr).1,
          p.2.message_id = p.1) ∧
        (∀ p ∈ (end_giveaway st gid fetch g).1, p.2.message_id = p.1) ∧
        (∀ p ∈ (reroll_giveaway st gid o fetch g).1, p.2.message_id = p.1) ∧
        (∀ p ∈ (cancel_giveaway st gid fetch).1, p.2.message_id = p.1) ∧
        (∀ p ∈ st.erase gid, p.2.message_id = p.1) ∧
        (∀ p ∈ (check_giveaways st now fetchF g).1, p.2.message_id = p.1) := by
  intro st h now ch host mid gid t w pr o fetch fetchF g
  refine ⟨?_, kc_end h gid fetch g, ?_, ?_, ?_, ?_⟩
  · -- create
    unfold create_giveaway
    repeat' split
    any_goals exact h
    exact kc_insert h rfl
  · -- reroll
    rw [reroll_store_frame]
    exact h
  · -- cancel
    exact kc_cancel h gid fetch
  · -- delete
    exact fun p hp => h p (Store.mem_erase hp)
  · -- tick
    rw [check_giveaways]
    refine foldl_step_preserve (fun s => ∀ p ∈ s, p.2.message_id = p.1) _
      ?_ _ (st, []) h
    intro acc gid' hacc
    cases hl : acc.1.lookup gid' with
    | none => simpa [hl] using hacc
    | some gv =>
      by_cases ht : gv.end_time ≤ now
      · simpa [hl, ht] using kc_end hacc gid' (fetchF gid') g
      · simpa [hl, ht] using hacc

/-- C10 witness: the invariant holds after each operation on a concrete
single-entry store. -/
theorem key_consistency_witness :
    (∀ p ∈ (create_giveaway [(1, gvActive)] 50 10 2 7 "5m" (some 2)
        "nitro").1, p.2.message_id = p.1) ∧
    (∀ p ∈ (end_giveaway [(1, gvActive)] 1 (.entrants [5]) gZero).1,
      p.2.message_id = p.1) ∧
    (∀ p ∈ (reroll_giveaway [(1, gvActive)] 1 none (.entrants [5]) gZero).1,
      p.2.message_id = p.1) ∧
    (∀ p ∈ (cancel_giveaway [(1, gvActive)] 1 (.entrants [5])).1,
      p.2.message_id = p.1) ∧
    (∀ p ∈ Store.erase [(1, gvActive)] 1, p.2.message_id = p.1) ∧
    (∀ p ∈ (check_giveaways [(1, gvActive)] 50 (fun _ => .entrants [5])
        gZero).1, p.2.message_id = p.1) :=
  key_consistency [(1, gvActive)] (by decide) 50 10 2 7 1 "5m" (some 2)
    "nitro" none (.entrants [5]) (fun _ => .entrants [5]) gZero

end GiveawayBot
